import Mathlib

/-!
Verification of the cross-artifact contract validator
(`skills/qa-engineer/scripts/validate_integration.py`).

The Python source is shallowly embedded: strings are `List Char`, Python
dicts (insertion ordered) are association lists, and each `re.sub` /
`re.finditer` call is modelled by an explicit left-to-right scanner.  The
scanners take a fuel argument (structural recursion on `Nat`) so that the
kernel can evaluate them on concrete inputs; fuel is always instantiated
with the length of the scanned list, which bounds the number of scan steps
since every step consumes at least one character.
-/

set_option linter.unusedVariables false

/- ---------- characters and character classes ---------- -/

/-- Left brace character (written numerically). -/
def cLB : Char := Char.ofNat 123

/-- Right brace character (written numerically). -/
def cRB : Char := Char.ofNat 125

/-- Single-quote character. -/
def cSQ : Char := Char.ofNat 39

/-- Double-quote character. -/
def cDQ : Char := Char.ofNat 34

/-- Backquote character. -/
def cBQ : Char := Char.ofNat 96

/-- Convert a string literal to the `List Char` the model works on. -/
def str (s : String) : List Char := s.data

/-- Python regex `\w` over the ASCII inputs the validator sees. -/
def isWordChar (c : Char) : Bool := c.isAlphanum || c = '_'

/-- Python regex `\s` / `str.strip` whitespace set. -/
def isSpaceChar (c : Char) : Bool :=
  c = ' ' || c = '\t' || c = '\n' || c = '\r' || c = Char.ofNat 11 || c = Char.ofNat 12

/-- Character class `[a-f0-9-]` from the UUID-segment pattern. -/
def isUuidChar (c : Char) : Bool :=
  ('a' ≤ c && c ≤ 'f') || ('0' ≤ c && c ≤ '9') || c = '-'

/-- Boolean prefix test on character lists. -/
def leadsWith : List Char → List Char → Bool
  | [], _ => true
  | _ :: _, [] => false
  | p :: ps, c :: cs => p = c && leadsWith ps cs

/-- Boolean substring test (`needle in haystack` in Python). -/
def hasSub (needle : List Char) : List Char → Bool
  | [] => needle.isEmpty
  | c :: rest => leadsWith needle (c :: rest) || hasSub needle rest

/- ---------- Python string primitives used by the validator ---------- -/

/-- Worker for `str.title`: Python title-cases each maximal letter run. -/
def pyTitleGo : Bool → List Char → List Char
  | _, [] => []
  | prevAlpha, c :: rest =>
    (if c.isAlpha then (if prevAlpha then c.toLower else c.toUpper) else c)
      :: pyTitleGo c.isAlpha rest

/-- Python `str.title()`. -/
def pyTitle (l : List Char) : List Char := pyTitleGo false l

/-- Python `str.upper()` over ASCII. -/
def pyUpper (l : List Char) : List Char := l.map Char.toUpper

/-- Python `str.rstrip(t)` with a one-character strip set. -/
def pyRstripChar (t : Char) (l : List Char) : List Char :=
  ((l.reverse).dropWhile (fun c => c = t)).reverse

/-- Python `str.strip()` (whitespace on both ends). -/
def pyStrip (l : List Char) : List Char :=
  (((l.dropWhile isSpaceChar).reverse).dropWhile isSpaceChar).reverse

/-- Python `str.split(sep)` for a one-character separator, keeping empties. -/
def pySplitChar (sep : Char) : List Char → List (List Char)
  | [] => [[]]
  | c :: rest =>
    let r := pySplitChar sep rest
    if c = sep then [] :: r
    else
      match r with
      | [] => [[c]]
      | h :: t => (c :: h) :: t

/-- `_snake_to_camel` (validate_integration.py lines 276-279):
`components[0] + ''.join(x.title() for x in components[1:])`. -/
def snakeToCamel (name : List Char) : List Char :=
  match pySplitChar '_' name with
  | [] => []
  | c0 :: rest => c0 ++ (rest.map pyTitle).flatten

/- ---------- insertion-ordered dictionaries ---------- -/

/-- Key lookup in an insertion-ordered association list (Python `d[k]` / `k in d`). -/
def alGet {β : Type} : List (List Char × β) → List Char → Option β
  | [], _ => none
  | (k, v) :: rest, key => if k = key then some v else alGet rest key

/-- Python `d[k] = v`: replace in place if the key exists, else append. -/
def pyInsert {β : Type} : List (List Char × β) → List Char → β → List (List Char × β)
  | [], k, v => [(k, v)]
  | (k', v') :: rest, k, v =>
    if k' = k then (k, v) :: rest else (k', v') :: pyInsert rest k v

/-- Key-set insert used for the `api_endpoints` dict (values are irrelevant). -/
def pyInsertKey (d : List (List Char)) (k : List Char) : List (List Char) :=
  if k ∈ d then d else d ++ [k]

/- ---------- data model ---------- -/

/-- `Severity` enum of the validator. -/
inductive Severity where
  | ERROR
  | WARNING
  | INFO
deriving DecidableEq, Repr

/-- `ValidationIssue` dataclass. -/
structure ValidationIssue where
  severity : Severity
  category : List Char
  message : List Char
  file : Option (List Char) := none
  line : Option Nat := none
  suggestion : Option (List Char) := none
deriving DecidableEq, Repr

/-- One parsed SQL column: raw type token and nullability. -/
structure ColumnRec where
  ctype : List Char
  nullable : Bool
deriving DecidableEq, Repr

/-- One parsed TypeScript interface field: raw type text and optional flag. -/
structure FieldRec where
  ftype : List Char
  optional : Bool
deriving DecidableEq, Repr

/-- One discovered backend route (`_scan_file_for_routes`, lines 365-380). -/
structure Route where
  method : List Char
  path : List Char
  file : List Char
deriving DecidableEq, Repr

/-- One discovered frontend API call (`_scan_file_for_api_calls`). -/
structure Call where
  url : List Char
  file : List Char
deriving DecidableEq, Repr

/-- Wrap an identifier in single quotes, as the f-string messages do. -/
def quoted (s : List Char) : List Char := cSQ :: s ++ [cSQ]

/- ---------- _compare_db_to_ts: per-column check (lines 256-274) ---------- -/

/-- The error issue built for a camelCase sibling (lines 262-267). -/
def caseMismatchIssue (iname col camel : List Char) : ValidationIssue :=
  { severity := Severity.ERROR
    category := str "Field Mismatch"
    message := str "Case mismatch in " ++ quoted iname ++ str ": database has "
      ++ quoted col ++ str ", TypeScript has " ++ quoted camel
    suggestion := some (str "Rename " ++ quoted camel ++ str " to " ++ quoted col
      ++ str " in types.ts to match database") }

/-- The warning issue built for a column with no field at all (lines 269-274). -/
def missingFieldIssue (col tname iname : List Char) : ValidationIssue :=
  { severity := Severity.WARNING
    category := str "Missing Field"
    message := str "Column " ++ quoted col ++ str " in table " ++ quoted tname
      ++ str " not found in interface " ++ quoted iname
    suggestion := some (str "Add " ++ quoted col ++ str " field to " ++ quoted iname
      ++ str " interface") }

/-- Body of the per-column loop of `_compare_db_to_ts` (lines 257-274). -/
def checkColumn (tname iname : List Char) (fields : List (List Char × FieldRec))
    (col : List Char) : List ValidationIssue :=
  if (alGet fields col).isSome then []
  else if (alGet fields (snakeToCamel col)).isSome then
    [caseMismatchIssue iname col (snakeToCamel col)]
  else
    [missingFieldIssue col tname iname]

/- ---------- validate_all verdict (lines 106-108) and exit code (463-464) ---------- -/

/-- Final verdict of `validate_all`: `len(errors) == 0`. -/
def validateVerdict (issues : List ValidationIssue) : Bool :=
  (issues.filter (fun i => i.severity = Severity.ERROR)).length == 0

/-- `sys.exit(0 if success else 1)` in `main`. -/
def exitStatus (success : Bool) : Nat := if success then 0 else 1

/- ---------- theorems ---------- -/

/-- Helper: the verdict is `false` exactly when an error-severity issue exists. -/
theorem validateVerdict_false_iff (issues : List ValidationIssue) :
    validateVerdict issues = false ↔ ∃ i ∈ issues, i.severity = Severity.ERROR := by
  unfold validateVerdict
  rw [beq_eq_false_iff_ne, Ne, List.length_eq_zero, List.filter_eq_nil_iff]
  push_neg
  simp

/- ---------- the re.sub path normalizers ---------- -/

/-- Scanner for `re.sub(r':(\w+)', r'{\1}', path)` (line 388): a named
parameter token `:name` becomes `{name}`.  `re.sub` scans left to right and
never rescans emitted output; fuel bounds the number of scan steps. -/
def subColonGo : Nat → List Char → List Char
  | 0, l => l
  | _ + 1, [] => []
  | fuel + 1, c :: rest =>
    if c = ':' then
      if (rest.takeWhile isWordChar).isEmpty then ':' :: subColonGo fuel rest
      else cLB :: (rest.takeWhile isWordChar ++ cRB :: subColonGo fuel (rest.dropWhile isWordChar))
    else c :: subColonGo fuel rest

/-- Backend route-path normalization `:name` → `{name}`. -/
def subColon (l : List Char) : List Char := subColonGo l.length l

/-- Scanner for `re.sub(r'\$\{[^}]+\}', '{id}', path)` (line 395): any
string-interpolation placeholder becomes the literal `{id}`. -/
def subInterpGo : Nat → List Char → List Char
  | 0, l => l
  | _ + 1, [] => []
  | fuel + 1, [c] => if c = '$' then ['$'] else c :: subInterpGo fuel []
  | fuel + 1, c :: c2 :: rest2 =>
    if c = '$' then
      if c2 = cLB then
        if (rest2.takeWhile (fun d => d ≠ cRB)).isEmpty then '$' :: subInterpGo fuel (c2 :: rest2)
        else
          match rest2.dropWhile (fun d => d ≠ cRB) with
          | _ :: rest3 => cLB :: 'i' :: 'd' :: cRB :: subInterpGo fuel rest3
          | [] => '$' :: subInterpGo fuel (c2 :: rest2)
      else '$' :: subInterpGo fuel (c2 :: rest2)
    else c :: subInterpGo fuel (c2 :: rest2)

/-- Frontend interpolation normalization `${...}` → `{id}`. -/
def subInterp (l : List Char) : List Char := subInterpGo l.length l

/-- Test for the `[a-f0-9-]{36}` part of the UUID-segment pattern. -/
def uuid36 (rest : List Char) : Bool :=
  decide (36 ≤ rest.length) && (rest.take 36).all isUuidChar

/-- Scanner for `re.sub(r'/[a-f0-9-]{36}', '/{id}', path)` (line 396): a
slash followed by 36 UUID-alphabet characters becomes `/{id}`. -/
def subUuidGo : Nat → List Char → List Char
  | 0, l => l
  | _ + 1, [] => []
  | fuel + 1, c :: rest =>
    if c = '/' && uuid36 rest then
      '/' :: cLB :: 'i' :: 'd' :: cRB :: subUuidGo fuel (rest.drop 36)
    else c :: subUuidGo fuel rest

/-- Frontend UUID-segment normalization. -/
def subUuid (l : List Char) : List Char := subUuidGo l.length l

/-- Scanner for `re.sub(r'\$\{(\w+)\}', r':\1', endpoint)`
(`_parse_endpoints_ts`, line 295): `${name}` becomes `:name`. -/
def subInterpColonGo : Nat → List Char → List Char
  | 0, l => l
  | _ + 1, [] => []
  | fuel + 1, c :: rest =>
    if c = '$' then
      match rest with
      | c2 :: rest2 =>
        if c2 = cLB then
          if (rest2.takeWhile isWordChar).isEmpty then '$' :: subInterpColonGo fuel rest
          else
            match rest2.dropWhile isWordChar with
            | d :: rest3 =>
              if d = cRB then ':' :: (rest2.takeWhile isWordChar ++ subInterpColonGo fuel rest3)
              else '$' :: subInterpColonGo fuel rest
            | [] => '$' :: subInterpColonGo fuel rest
        else '$' :: subInterpColonGo fuel rest
      | [] => ['$']
    else c :: subInterpColonGo fuel rest

/-- Endpoint-table normalization `${name}` → `:name`. -/
def subInterpColon (l : List Char) : List Char := subInterpColonGo l.length l

/-- After a matched scheme, require `[^/]+` (a nonempty host) and return
the remainder. -/
def hostTail (l1 : List Char) : Option (List Char) :=
  if (l1.takeWhile (fun d => d ≠ '/')).isEmpty then none
  else some (l1.dropWhile (fun d => d ≠ '/'))

/-- Attempt to match `https?://[^/]+` at the head of the list; on success
return the remainder after the match. -/
def tryHost (l : List Char) : Option (List Char) :=
  if leadsWith (str "https://") l then hostTail (l.drop 8)
  else if leadsWith (str "http://") l then hostTail (l.drop 7)
  else none

/-- Scanner for `re.sub(r'https?://[^/]+', '', url)` (line 394). -/
def hostStripGo : Nat → List Char → List Char
  | 0, l => l
  | _ + 1, [] => []
  | fuel + 1, c :: rest =>
    match tryHost (c :: rest) with
    | some rest2 => hostStripGo fuel rest2
    | none => c :: hostStripGo fuel rest

/-- Scheme-and-host removal applied to frontend call URLs. -/
def hostStrip (l : List Char) : List Char := hostStripGo l.length l

/-- Full frontend call-path normalization (lines 394-396, in source order). -/
def normalizeCallPath (url : List Char) : List Char :=
  subUuid (subInterp (hostStrip url))

/- ---------- _compare_frontend_to_backend (lines 382-407) ---------- -/

/-- Normalized backend route-path set (lines 384-389); membership is all
that is used of it, so an ordered list models the Python set faithfully. -/
def backendPathsOf (routes : List Route) : List (List Char) :=
  routes.map (fun r => subColon r.path)

/-- The warning built when a frontend call matches no backend route and no
endpoint template (lines 401-407). -/
def routeMismatchIssue (path file : List Char) : ValidationIssue :=
  { severity := Severity.WARNING
    category := str "Route Mismatch"
    message := str "Frontend calls " ++ quoted path ++ str " but no matching backend route found"
    file := some file
    suggestion := some (str "Add route to backend or fix frontend URL") }

/-- Per-call body of the loop in `_compare_frontend_to_backend` (lines 391-407). -/
def routeIssue (backendPaths endpointKeys : List (List Char)) (call : Call) :
    Option ValidationIssue :=
  let path := normalizeCallPath call.url
  if leadsWith (str "/api") path = true ∧ path ∉ backendPaths then
    if path ∉ endpointKeys then some (routeMismatchIssue path call.file) else none
  else none

/-- `_compare_frontend_to_backend`: issues in frontend-call order. -/
def compareFrontendToBackend (routes : List Route) (endpointKeys : List (List Char))
    (calls : List Call) : List ValidationIssue :=
  calls.filterMap (routeIssue (backendPathsOf routes) endpointKeys)


/- ---------- generic helpers for the scanner proofs ---------- -/

/-- Dropping a satisfying prefix never lengthens a list. -/
theorem lengthDropWhileLe (p : Char → Bool) : ∀ l : List Char,
    (l.dropWhile p).length ≤ l.length := by
  intro l
  induction l with
  | nil => simp
  | cons c rest ih =>
    by_cases hp : p c = true
    · rw [List.dropWhile_cons_of_pos hp]
      exact Nat.le_succ_of_le ih
    · rw [List.dropWhile_cons_of_neg hp]

/-- `all` restricted to a `takeWhile` prefix. -/
theorem allTakeWhile {p q : Char → Bool} : ∀ l : List Char,
    l.all q = true → (l.takeWhile p).all q = true := by
  intro l h
  rw [List.all_eq_true] at h ⊢
  intro x hx
  exact h x (List.takeWhile_subset _ hx)

/-- `all` restricted to a `dropWhile` suffix. -/
theorem allDropWhile {p q : Char → Bool} : ∀ l : List Char,
    l.all q = true → (l.dropWhile p).all q = true := by
  intro l h
  rw [List.all_eq_true] at h ⊢
  intro x hx
  exact h x (List.dropWhile_subset _ hx)

/-- `all` restricted to a `drop` suffix. -/
theorem allDrop {q : Char → Bool} (n : Nat) : ∀ l : List Char,
    l.all q = true → (l.drop n).all q = true := by
  intro l h
  rw [List.all_eq_true] at h ⊢
  intro x hx
  exact h x (List.mem_of_mem_drop hx)

/- ---------- colon-token matches (the `:(\w+)` pattern) ---------- -/

/-- Head character satisfies `\w`. -/
def headIsWord : List Char → Bool
  | [] => false
  | c :: _ => isWordChar c

/-- `true` iff `:(\w+)` matches somewhere in the list. -/
def hasColonMatch : List Char → Bool
  | [] => false
  | c :: rest => ((c == ':') && headIsWord rest) || hasColonMatch rest

/-- A list with no `:(\w+)` match is a fixed point of the colon scanner. -/
theorem subColonGoId (fuel : Nat) : ∀ l : List Char, l.length ≤ fuel →
    hasColonMatch l = false → subColonGo fuel l = l := by
  induction fuel with
  | zero => intro l _ _; rfl
  | succ f ih =>
    intro l hlen hm
    match l with
    | [] => rfl
    | c :: rest =>
      rw [hasColonMatch, Bool.or_eq_false_iff] at hm
      simp only [List.length_cons, Nat.succ_le_succ_iff] at hlen
      by_cases hc : c = ':'
      · have hw : headIsWord rest = false := by
          rcases hm.1 |> Bool.and_eq_false_iff.mp with h | h
          · rw [hc] at h; simp at h
          · exact h
        have htw : rest.takeWhile isWordChar = [] := by
          cases rest with
          | nil => rfl
          | cons r rs =>
            apply List.takeWhile_cons_of_neg
            rw [headIsWord] at hw
            simp [hw]
        rw [subColonGo, if_pos hc, htw]
        simp only [List.isEmpty_nil, if_pos]
        rw [ih rest hlen hm.2, hc]
      · rw [subColonGo, if_neg hc, ih rest hlen hm.2]

/-- The colon scanner preserves a non-word head. -/
theorem subColonGoHead (fuel : Nat) (l : List Char) (h : headIsWord l = false) :
    headIsWord (subColonGo fuel l) = false := by
  cases fuel with
  | zero => exact h
  | succ f =>
    cases l with
    | nil => exact h
    | cons c rest =>
      by_cases hc : c = ':'
      · rw [subColonGo, if_pos hc]
        by_cases hw : (rest.takeWhile isWordChar).isEmpty = true
        · rw [if_pos hw]
          show isWordChar ':' = false
          decide
        · rw [if_neg hw]
          show isWordChar cLB = false
          decide
      · rw [subColonGo, if_neg hc]
        exact h

/-- Skipping over non-colon characters does not affect `hasColonMatch`. -/
theorem hasColonMatchAppend : ∀ (w x : List Char),
    (∀ a ∈ w, a ≠ ':') → hasColonMatch (w ++ x) = hasColonMatch x := by
  intro w x hw
  induction w with
  | nil => rfl
  | cons a w' ih =>
    have ha : a ≠ ':' := hw a (List.mem_cons_self a w')
    rw [List.cons_append, hasColonMatch, ih (fun b hb => hw b (List.mem_cons_of_mem a hb))]
    simp [ha]

/-- Output of the colon scanner contains no `:(\w+)` match. -/
theorem hasColonMatchSubColonGo (fuel : Nat) : ∀ l : List Char, l.length ≤ fuel →
    hasColonMatch (subColonGo fuel l) = false := by
  induction fuel with
  | zero =>
    intro l hlen
    have : l = [] := List.length_eq_zero.mp (Nat.le_zero.mp hlen)
    subst this; rfl
  | succ f ih =>
    intro l hlen
    match l with
    | [] => rfl
    | c :: rest =>
      simp only [List.length_cons, Nat.succ_le_succ_iff] at hlen
      by_cases hc : c = ':'
      · rw [subColonGo, if_pos hc]
        by_cases hw : (rest.takeWhile isWordChar).isEmpty = true
        · rw [if_pos hw]
          have hrestHead : headIsWord rest = false := by
            cases rest with
            | nil => rfl
            | cons r rs =>
              rw [List.isEmpty_iff] at hw
              by_cases hr : isWordChar r = true
              · rw [List.takeWhile_cons_of_pos hr] at hw; simp at hw
              · rw [headIsWord]; simp [hr]
          rw [hasColonMatch, Bool.or_eq_false_iff]
          constructor
          · rw [subColonGoHead f rest hrestHead]; simp
          · exact ih rest hlen
        · rw [if_neg hw]
          have hnc : (cLB == ':') = false := by decide
          rw [hasColonMatch, hnc, Bool.false_and, Bool.false_or]
          rw [hasColonMatchAppend]
          · rw [hasColonMatch]
            have : ((cRB == ':') = false) := by decide
            rw [this, Bool.false_and, Bool.false_or]
            exact ih _ (le_trans (lengthDropWhileLe _ _) hlen)
          · intro a ha
            have := List.mem_takeWhile_imp ha
            intro heq
            rw [heq] at this
            simp [isWordChar] at this
      · rw [subColonGo, if_neg hc, hasColonMatch, Bool.or_eq_false_iff]
        constructor
        · simp [hc]
        · exact ih rest hlen

/-- `:name` → `{name}` rewriting is idempotent. -/
theorem subColonIdem (l : List Char) : subColon (subColon l) = subColon l :=
  subColonGoId _ _ le_rfl (hasColonMatchSubColonGo _ _ le_rfl)

/- ---------- UUID-segment matches (the `/[a-f0-9-]{36}` pattern) ---------- -/

/-- `n` leading characters all in the UUID alphabet. -/
def uuidN (n : Nat) (l : List Char) : Bool :=
  decide (n ≤ l.length) && (l.take n).all isUuidChar

/-- The scanner's window test is `uuidN 36`. -/
theorem uuid36Eq (l : List Char) : uuid36 l = uuidN 36 l := rfl

/-- Window test on a cons cell. -/
theorem uuidNCons (n : Nat) (c : Char) (l : List Char) :
    uuidN (n + 1) (c :: l) = (isUuidChar c && uuidN n l) := by
  simp only [uuidN, List.length_cons, List.take_succ_cons, List.all_cons,
    Nat.add_le_add_iff_right]
  rw [Bool.and_left_comm]

/-- The window test always holds for the empty window. -/
theorem uuidNZero (l : List Char) : uuidN 0 l = true := by
  simp [uuidN]

/-- `true` iff `/[a-f0-9-]{36}` matches somewhere in the list. -/
def hasUuidMatch : List Char → Bool
  | [] => false
  | c :: rest => ((c == '/') && uuid36 rest) || hasUuidMatch rest

/-- A list with no UUID-segment match is a fixed point of the UUID scanner. -/
theorem subUuidGoId (fuel : Nat) : ∀ l : List Char, l.length ≤ fuel →
    hasUuidMatch l = false → subUuidGo fuel l = l := by
  induction fuel with
  | zero => intro l _ _; rfl
  | succ f ih =>
    intro l hlen hm
    match l with
    | [] => rfl
    | c :: rest =>
      rw [hasUuidMatch, Bool.or_eq_false_iff] at hm
      simp only [List.length_cons, Nat.succ_le_succ_iff] at hlen
      have hcond : (decide (c = '/') && uuid36 rest) = false := by
        have := hm.1
        by_cases hc : c = '/'
        · simp only [hc, beq_self_eq_true, Bool.true_and] at this
          simp [hc, this]
        · simp [hc]
      rw [subUuidGo, hcond]
      simp only [Bool.false_eq_true, if_false]
      rw [ih rest hlen hm.2]

/-- The UUID scanner never changes the head character of its input. -/
theorem subUuidGoHead (fuel : Nat) (l : List Char) (h : headIsWord l = false) :
    headIsWord (subUuidGo fuel l) = false := by
  cases fuel with
  | zero => exact h
  | succ f =>
    cases l with
    | nil => exact h
    | cons c rest =>
      rw [subUuidGo]
      by_cases hcond : (decide (c = '/') && uuid36 rest) = true
      · rw [if_pos hcond]
        show isWordChar '/' = false
        decide
      · rw [if_neg hcond]
        exact h

/-- A failing window test survives the UUID scanner. -/
theorem uuidNSubUuidGo (fuel : Nat) : ∀ (n : Nat) (l : List Char), l.length ≤ fuel →
    uuidN n l = false → uuidN n (subUuidGo fuel l) = false := by
  induction fuel with
  | zero => intro n l _ h; exact h
  | succ f ih =>
    intro n l hlen h
    match l with
    | [] => exact h
    | c :: rest =>
      simp only [List.length_cons, Nat.succ_le_succ_iff] at hlen
      match n with
      | 0 => rw [uuidNZero] at h; cases h
      | m + 1 =>
        rw [uuidNCons, Bool.and_eq_false_iff] at h
        rw [subUuidGo]
        by_cases hcond : (decide (c = '/') && uuid36 rest) = true
        · rw [if_pos hcond]
          have hc : c = '/' := by
            rcases Bool.and_eq_true_iff.mp hcond with ⟨h1, _⟩
            exact of_decide_eq_true h1
          rw [uuidNCons, Bool.and_eq_false_iff]
          left
          decide
        · rw [if_neg hcond]
          rw [uuidNCons, Bool.and_eq_false_iff]
          rcases h with h | h
          · left; exact h
          · right; exact ih m rest hlen h

/-- Output of the UUID scanner contains no UUID-segment match. -/
theorem hasUuidMatchSubUuidGo (fuel : Nat) : ∀ l : List Char, l.length ≤ fuel →
    hasUuidMatch (subUuidGo fuel l) = false := by
  induction fuel with
  | zero =>
    intro l hlen
    have : l = [] := List.length_eq_zero.mp (Nat.le_zero.mp hlen)
    subst this; rfl
  | succ f ih =>
    intro l hlen
    match l with
    | [] => rfl
    | c :: rest =>
      simp only [List.length_cons, Nat.succ_le_succ_iff] at hlen
      rw [subUuidGo]
      by_cases hcond : (decide (c = '/') && uuid36 rest) = true
      · rw [if_pos hcond]
        have hrec : hasUuidMatch (subUuidGo f (rest.drop 36)) = false :=
          ih _ (le_trans (by rw [List.length_drop]; omega) hlen)
        rw [hasUuidMatch]
        have h1 : uuid36 (cLB :: 'i' :: 'd' :: cRB :: subUuidGo f (rest.drop 36)) = false := by
          rw [uuid36Eq]
          show uuidN (35 + 1) _ = false
          rw [uuidNCons, Bool.and_eq_false_iff]
          left; decide
        rw [h1, Bool.and_false, Bool.false_or]
        rw [hasUuidMatch]
        have h2 : (cLB == '/') = false := by decide
        rw [h2, Bool.false_and, Bool.false_or]
        rw [hasUuidMatch]
        have h3 : (('i' : Char) == '/') = false := by decide
        rw [h3, Bool.false_and, Bool.false_or]
        rw [hasUuidMatch]
        have h4 : (('d' : Char) == '/') = false := by decide
        rw [h4, Bool.false_and, Bool.false_or]
        rw [hasUuidMatch]
        have h5 : (cRB == '/') = false := by decide
        rw [h5, Bool.false_and, Bool.false_or]
        exact hrec
      · rw [if_neg hcond]
        rw [hasUuidMatch, Bool.or_eq_false_iff]
        constructor
        · by_cases hc : c = '/'
          · have hu : uuid36 rest = false := by
              by_cases hu' : uuid36 rest = true
              · exfalso; exact hcond (by simp [hc, hu'])
              · exact Bool.not_eq_true _ ▸ hu'
            rw [uuid36Eq] at hu ⊢
            rw [uuidNSubUuidGo f 36 rest hlen hu]
            simp
          · simp [hc]
        · exact ih rest hlen

/-- UUID-segment rewriting is idempotent. -/
theorem subUuidIdem (l : List Char) : subUuid (subUuid l) = subUuid l :=
  subUuidGoId _ _ le_rfl (hasUuidMatchSubUuidGo _ _ le_rfl)

/- ---------- dollar-free inputs and the interpolation scanner ---------- -/

/-- No `$` character occurs in the list. -/
def noDollar (l : List Char) : Bool := l.all (fun c => c ≠ '$')

/-- The interpolation scanner sends the empty list to itself. -/
theorem subInterpGoNil (fuel : Nat) : subInterpGo fuel [] = [] := by
  cases fuel <;> rfl

/-- A `$`-free list is a fixed point of the interpolation scanner. -/
theorem subInterpGoId (fuel : Nat) : ∀ l : List Char, l.length ≤ fuel →
    noDollar l = true → subInterpGo fuel l = l := by
  induction fuel with
  | zero => intro l _ _; rfl
  | succ f ih =>
    intro l hlen hd
    match l with
    | [] => rfl
    | [c] =>
      rw [noDollar, List.all_cons, Bool.and_eq_true] at hd
      have hc : ¬ c = '$' := by simpa using hd.1
      rw [subInterpGo, if_neg hc, subInterpGoNil]
    | c :: c2 :: rest2 =>
      rw [noDollar, List.all_cons, Bool.and_eq_true] at hd
      simp only [List.length_cons, Nat.succ_le_succ_iff] at hlen
      have hc : ¬ c = '$' := by simpa using hd.1
      rw [subInterpGo, if_neg hc, ih (c2 :: rest2) hlen hd.2]

/-- The colon scanner introduces no `$` characters. -/
theorem noDollarSubColonGo (fuel : Nat) : ∀ l : List Char, l.length ≤ fuel →
    noDollar l = true → noDollar (subColonGo fuel l) = true := by
  induction fuel with
  | zero => intro l _ h; exact h
  | succ f ih =>
    intro l hlen hd
    match l with
    | [] => exact hd
    | c :: rest =>
      rw [noDollar, List.all_cons, Bool.and_eq_true] at hd
      simp only [List.length_cons, Nat.succ_le_succ_iff] at hlen
      by_cases hc : c = ':'
      · rw [subColonGo, if_pos hc]
        by_cases hw : (rest.takeWhile isWordChar).isEmpty = true
        · have hrec := ih rest hlen hd.2
          rw [noDollar] at hrec
          rw [if_pos hw, noDollar, List.all_cons, hrec]
          simp
        · have h1 : (rest.takeWhile isWordChar).all (fun c => decide (c ≠ '$')) = true :=
            allTakeWhile rest hd.2
          have h2 := ih (rest.dropWhile isWordChar)
            (le_trans (lengthDropWhileLe isWordChar rest) hlen)
            (allDropWhile (p := isWordChar) rest hd.2)
          rw [noDollar] at h2
          rw [if_neg hw, noDollar, List.all_cons, List.all_append, List.all_cons, h1, h2]
          simp
          decide
      · have hrec := ih rest hlen hd.2
        rw [noDollar] at hrec
        rw [subColonGo, if_neg hc, noDollar, List.all_cons, hrec]
        simp [hd.1]

/-- The UUID scanner introduces no `$` characters. -/
theorem noDollarSubUuidGo (fuel : Nat) : ∀ l : List Char, l.length ≤ fuel →
    noDollar l = true → noDollar (subUuidGo fuel l) = true := by
  induction fuel with
  | zero => intro l _ h; exact h
  | succ f ih =>
    intro l hlen hd
    match l with
    | [] => exact hd
    | c :: rest =>
      rw [noDollar, List.all_cons, Bool.and_eq_true] at hd
      simp only [List.length_cons, Nat.succ_le_succ_iff] at hlen
      rw [subUuidGo]
      by_cases hcond : (decide (c = '/') && uuid36 rest) = true
      · rw [if_pos hcond]
        have hrec := ih _ (le_trans (by rw [List.length_drop]; omega) hlen) (allDrop 36 rest hd.2)
        rw [noDollar] at hrec
        rw [noDollar, List.all_cons, List.all_cons, List.all_cons, List.all_cons, List.all_cons,
          hrec]
        simp
        decide
      · have hrec := ih rest hlen hd.2
        rw [noDollar] at hrec
        rw [if_neg hcond, noDollar, List.all_cons, hrec]
        simp [hd.1]

/-- Skipping the head also skips any colon match there. -/
theorem hasColonMatchTail (c : Char) (rest : List Char)
    (h : hasColonMatch (c :: rest) = false) : hasColonMatch rest = false := by
  rw [hasColonMatch, Bool.or_eq_false_iff] at h
  exact h.2

/-- Dropping a prefix cannot create a colon match. -/
theorem hasColonMatchDrop (n : Nat) : ∀ l : List Char,
    hasColonMatch l = false → hasColonMatch (l.drop n) = false := by
  induction n with
  | zero => intro l h; exact h
  | succ m ih =>
    intro l h
    match l with
    | [] => exact h
    | c :: rest => exact ih rest (hasColonMatchTail c rest h)

/-- The UUID scanner cannot create a colon match. -/
theorem hasColonMatchSubUuidGo (fuel : Nat) : ∀ l : List Char, l.length ≤ fuel →
    hasColonMatch l = false → hasColonMatch (subUuidGo fuel l) = false := by
  induction fuel with
  | zero => intro l _ h; exact h
  | succ f ih =>
    intro l hlen h
    match l with
    | [] => exact h
    | c :: rest =>
      have hrest : hasColonMatch rest = false := hasColonMatchTail c rest h
      rw [hasColonMatch, Bool.or_eq_false_iff] at h
      simp only [List.length_cons, Nat.succ_le_succ_iff] at hlen
      rw [subUuidGo]
      by_cases hcond : (decide (c = '/') && uuid36 rest) = true
      · rw [if_pos hcond]
        have hrec : hasColonMatch (subUuidGo f (rest.drop 36)) = false :=
          ih _ (le_trans (by rw [List.length_drop]; omega) hlen)
            (hasColonMatchDrop 36 rest hrest)
        rw [hasColonMatch]
        have e1 : (('/' : Char) == ':') = false := by decide
        rw [e1, Bool.false_and, Bool.false_or]
        rw [hasColonMatch]
        have e2 : (cLB == ':') = false := by decide
        rw [e2, Bool.false_and, Bool.false_or]
        rw [hasColonMatch]
        have e3 : (('i' : Char) == ':') = false := by decide
        rw [e3, Bool.false_and, Bool.false_or]
        rw [hasColonMatch]
        have e4 : (('d' : Char) == ':') = false := by decide
        rw [e4, Bool.false_and, Bool.false_or]
        rw [hasColonMatch]
        have e5 : (cRB == ':') = false := by decide
        rw [e5, Bool.false_and, Bool.false_or]
        exact hrec
      · rw [if_neg hcond]
        rw [hasColonMatch, Bool.or_eq_false_iff]
        refine ⟨?_, ih rest hlen hrest⟩
        by_cases hc : c = ':'
        · have hhead : headIsWord rest = false := by
            rcases Bool.and_eq_false_iff.mp h.1 with h1 | h1
            · rw [hc] at h1; simp at h1
            · exact h1
          rw [subUuidGoHead f rest hhead, Bool.and_false]
        · simp [hc]

/- ---------- the composite normalizer of claim C7 ---------- -/

/-- The path-parameter normalizer as a whole: the `:name`, `${...}` and
UUID-segment substitutions (the code applies the first to backend route
paths at line 388 and the other two to frontend call paths at lines
395-396). -/
def normalizePath (l : List Char) : List Char := subUuid (subInterp (subColon l))

/-- C7: the claim states that the path-parameter normalizer is idempotent on
every path string.  That is false (see `c7_counterexample`): `re.sub` does
not rescan its output, so a path like `$${x}}` gains a fresh `${...}`
occurrence after one pass.  Amended claim, changed only as far as the
counterexample forces: the `:name` → `{name}` and UUID → `{id}`
substitutions are individually idempotent on all paths, and the full
three-substitution normalizer is idempotent on every path that contains no
dollar character. -/
theorem c7_normalizer_idempotent_amended :
    (∀ p : List Char, subColon (subColon p) = subColon p)
  ∧ (∀ p : List Char, subUuid (subUuid p) = subUuid p)
  ∧ (∀ p : List Char, noDollar p = true →
      normalizePath (normalizePath p) = normalizePath p) := by
  refine ⟨subColonIdem, subUuidIdem, ?_⟩
  intro p hp
  have hq : noDollar (subColon p) = true := noDollarSubColonGo _ _ le_rfl hp
  have hIq : subInterp (subColon p) = subColon p := subInterpGoId _ _ le_rfl hq
  have hr : normalizePath p = subUuid (subColon p) := by rw [normalizePath, hIq]
  have hcolq : hasColonMatch (subColon p) = false := hasColonMatchSubColonGo _ _ le_rfl
  have hcolr : hasColonMatch (subUuid (subColon p)) = false :=
    hasColonMatchSubUuidGo _ _ le_rfl hcolq
  have hnr : noDollar (subUuid (subColon p)) = true := noDollarSubUuidGo _ _ le_rfl hq
  have hCr : subColon (subUuid (subColon p)) = subUuid (subColon p) :=
    subColonGoId _ _ le_rfl hcolr
  have hIr : subInterp (subUuid (subColon p)) = subUuid (subColon p) :=
    subInterpGoId _ _ le_rfl hnr
  have hUr : subUuid (subUuid (subColon p)) = subUuid (subColon p) := subUuidIdem _
  rw [hr, normalizePath, hCr, hIr, hUr]

/-- C7 counterexample: on the path `$${x}}` one pass of the normalizer
yields `${id}}` and a second pass yields `{id}}`, so the normalizer is not
idempotent as the claim states. -/
theorem c7_counterexample :
    normalizePath (normalizePath (str "$$\x7bx\x7d\x7d")) ≠
      normalizePath (str "$$\x7bx\x7d\x7d") ∧
    normalizePath (str "$$\x7bx\x7d\x7d") = str "$\x7bid\x7d\x7d" ∧
    normalizePath (normalizePath (str "$$\x7bx\x7d\x7d")) = str "\x7bid\x7d\x7d" := by
  refine ⟨?_, by decide, by decide⟩
  decide

/-- C7 witness: the amended idempotence applied to the concrete dollar-free
route path `/api/cv/:id`. -/
theorem c7_witness :
    noDollar (str "/api/cv/:id") = true ∧
    normalizePath (normalizePath (str "/api/cv/:id")) = normalizePath (str "/api/cv/:id") :=
  ⟨by decide, c7_normalizer_idempotent_amended.2.2 (str "/api/cv/:id") (by decide)⟩

/- ---------- prefix-copy lemmas for symbolic parameter names ---------- -/

/-- The colon scanner sends the empty list to itself. -/
theorem subColonGoNil (fuel : Nat) : subColonGo fuel [] = [] := by
  cases fuel <;> rfl

/-- `takeWhile` over an all-satisfying block followed by a failing head. -/
theorem takeWhileAppendStop {p : Char → Bool} : ∀ (w : List Char) (b : Char) (t : List Char),
    (∀ c ∈ w, p c = true) → p b = false → (w ++ b :: t).takeWhile p = w := by
  intro w b t hw hb
  induction w with
  | nil => simp [List.takeWhile_cons_of_neg, hb]
  | cons a w' ih =>
    rw [List.cons_append,
      List.takeWhile_cons_of_pos (hw a (List.mem_cons_self a w')),
      ih (fun c hc => hw c (List.mem_cons_of_mem a hc))]

/-- `dropWhile` over an all-satisfying block followed by a failing head. -/
theorem dropWhileAppendStop {p : Char → Bool} : ∀ (w : List Char) (b : Char) (t : List Char),
    (∀ c ∈ w, p c = true) → p b = false → (w ++ b :: t).dropWhile p = b :: t := by
  intro w b t hw hb
  induction w with
  | nil => simp [List.dropWhile_cons_of_neg, hb]
  | cons a w' ih =>
    rw [List.cons_append,
      List.dropWhile_cons_of_pos (hw a (List.mem_cons_self a w')),
      ih (fun c hc => hw c (List.mem_cons_of_mem a hc))]

/-- The colon scanner copies a colon-free prefix verbatim. -/
theorem subColonAppend : ∀ (pre l : List Char), (∀ c ∈ pre, ¬ c = ':') →
    subColon (pre ++ l) = pre ++ subColonGo l.length l := by
  intro pre
  induction pre with
  | nil => intro l h; rfl
  | cons c pre' ih =>
    intro l h
    have hc : ¬ c = ':' := h c (List.mem_cons_self c pre')
    show subColonGo (c :: (pre' ++ l)).length (c :: (pre' ++ l)) = _
    rw [List.length_cons, subColonGo, if_neg hc]
    show c :: subColon (pre' ++ l) = c :: (pre' ++ subColonGo l.length l)
    rw [ih l (fun b hb => h b (List.mem_cons_of_mem c hb))]

/-- A non-dollar head is copied and scanning continues on the tail. -/
theorem subInterpGoCons (f : Nat) (c : Char) (rest : List Char) (hc : ¬ c = '$') :
    subInterpGo (f + 1) (c :: rest) = c :: subInterpGo f rest := by
  cases rest with
  | nil => rw [subInterpGo, if_neg hc]
  | cons c2 rest2 => rw [subInterpGo, if_neg hc]

/-- The interpolation scanner copies a `$`-free prefix verbatim. -/
theorem subInterpAppend : ∀ (pre l : List Char), (∀ c ∈ pre, ¬ c = '$') →
    subInterp (pre ++ l) = pre ++ subInterpGo l.length l := by
  intro pre
  induction pre with
  | nil => intro l h; rfl
  | cons c pre' ih =>
    intro l h
    have hc : ¬ c = '$' := h c (List.mem_cons_self c pre')
    show subInterpGo ((pre' ++ l).length + 1) (c :: (pre' ++ l))
      = c :: (pre' ++ subInterpGo l.length l)
    rw [subInterpGoCons _ _ _ hc]
    show c :: subInterp (pre' ++ l) = c :: (pre' ++ subInterpGo l.length l)
    rw [ih l (fun b hb => h b (List.mem_cons_of_mem c hb))]

/-- One interpolation match at the head of the scanned region:
`${w}` (word-only `w`) rewrites to `{id}` and scanning continues after it. -/
theorem subInterpGoStep (fuel : Nat) (w tail : List Char) (hw : ¬ w = [])
    (hnb : ∀ c ∈ w, (fun d => decide (d ≠ cRB)) c = true) :
    subInterpGo (fuel + 1) ('$' :: cLB :: (w ++ cRB :: tail))
      = cLB :: 'i' :: 'd' :: cRB :: subInterpGo fuel tail := by
  cases w with
  | nil => exact absurd rfl hw
  | cons a w' =>
    rw [List.cons_append, subInterpGo, if_pos rfl, if_pos rfl]
    have htw : ((a :: (w' ++ cRB :: tail)).takeWhile fun d => decide (d ≠ cRB))
        = a :: w' := by
      have := takeWhileAppendStop (p := fun d => decide (d ≠ cRB)) (a :: w') cRB tail hnb
        (by simp)
      simpa using this
    have hdw : ((a :: (w' ++ cRB :: tail)).dropWhile fun d => decide (d ≠ cRB))
        = cRB :: tail := by
      have := dropWhileAppendStop (p := fun d => decide (d ≠ cRB)) (a :: w') cRB tail hnb
        (by simp)
      simpa using this
    rw [htw, hdw]
    simp

/-- A matched `leadsWith` prefix is contained in the list. -/
theorem leadsWithMem : ∀ (p l : List Char), leadsWith p l = true → ∀ c ∈ p, c ∈ l := by
  intro p
  induction p with
  | nil => intro l _ c hc; cases hc
  | cons a ps ih =>
    intro l h c hc
    cases l with
    | nil => cases h
    | cons b bs =>
      rw [leadsWith, Bool.and_eq_true] at h
      have hab : a = b := of_decide_eq_true h.1
      rcases List.mem_cons.mp hc with hca | hca
      · rw [hca, hab]; exact List.mem_cons_self b bs
      · exact List.mem_cons_of_mem b (ih bs h.2 c hca)

/-- A colon-free list can hold no `https?://` scheme, so `tryHost` fails. -/
theorem tryHostNone (l : List Char) (h : ∀ c ∈ l, ¬ c = ':') : tryHost l = none := by
  rw [tryHost]
  have h1 : ¬ leadsWith (str "https://") l = true := by
    intro hb
    exact h ':' (leadsWithMem _ _ hb ':' (by decide)) rfl
  have h2 : ¬ leadsWith (str "http://") l = true := by
    intro hb
    exact h ':' (leadsWithMem _ _ hb ':' (by decide)) rfl
  rw [if_neg h1, if_neg h2]

/-- A colon-free list is a fixed point of the host-stripping scanner. -/
theorem hostStripGoId (fuel : Nat) : ∀ l : List Char, l.length ≤ fuel →
    (∀ c ∈ l, ¬ c = ':') → hostStripGo fuel l = l := by
  induction fuel with
  | zero => intro l _ _; rfl
  | succ f ih =>
    intro l hlen h
    match l with
    | [] => rfl
    | c :: rest =>
      simp only [List.length_cons, Nat.succ_le_succ_iff] at hlen
      rw [hostStripGo, tryHostNone (c :: rest) h,
        ih rest hlen (fun b hb => h b (List.mem_cons_of_mem c hb))]

/-- C2 counterexample: the claim says every dynamic segment is rewritten to
one single canonical placeholder so that a backend `:name` route and a
frontend `${name}` call compare equal for every parameter name.  In the
code the backend keeps the name (`:userId` → `{userId}`) while the frontend
always produces the literal `{id}` (`${userId}` → `{id}`), so for the
parameter name `userId` the two sides normalize differently and the
comparison emits one issue instead of zero. -/
theorem c2_counterexample :
    subColon (str "/api/users/:userId")
      ≠ normalizeCallPath (str "/api/users/$\x7buserId\x7d")
    ∧ compareFrontendToBackend [⟨str "GET", str "/api/users/:userId", str "routes.ts"⟩] []
        [⟨str "/api/users/$\x7buserId\x7d", str "api.ts"⟩]
      = [routeMismatchIssue (str "/api/users/\x7bid\x7d") (str "api.ts")] := by
  constructor
  · decide
  · decide

/-- C2 (amended): backend `:name` tokens normalize to `{name}` (keeping the
parameter name) and frontend `${...}` placeholders normalize to the fixed
literal `{id}`; the two normal forms agree exactly when the parameter is
named `id`.  In particular the spec scenario `/api/cv/:id` versus
`` fetch(`/api/cv/${id}`) `` produces zero issues. -/
theorem c2_param_normalization_amended :
    (∀ w : List Char, ¬ w = [] → w.all isWordChar = true →
      subColon (str "/api/cv/" ++ (':' :: w)) = str "/api/cv/" ++ (cLB :: w ++ [cRB])
      ∧ normalizeCallPath (str "/api/cv/" ++ ('$' :: cLB :: (w ++ [cRB])))
          = str "/api/cv/" ++ (cLB :: str "id" ++ [cRB])
      ∧ (subColon (str "/api/cv/" ++ (':' :: w))
          = normalizeCallPath (str "/api/cv/" ++ ('$' :: cLB :: (w ++ [cRB])))
         ↔ w = str "id"))
    ∧ compareFrontendToBackend [⟨str "GET", str "/api/cv/:id", str "routes.ts"⟩] []
        [⟨str "/api/cv/$\x7bid\x7d", str "api.ts"⟩] = [] := by
  constructor
  · intro w hw hword
    have ha : subColon (str "/api/cv/" ++ (':' :: w))
        = str "/api/cv/" ++ (cLB :: w ++ [cRB]) := by
      rw [subColonAppend (str "/api/cv/") (':' :: w) (by decide)]
      have htw : w.takeWhile isWordChar = w :=
        List.takeWhile_eq_self_iff.mpr (fun x hx => List.all_eq_true.mp hword x hx)
      have hdw : w.dropWhile isWordChar = [] :=
        List.dropWhile_eq_nil_iff.mpr (fun x hx => List.all_eq_true.mp hword x hx)
      have hgo : subColonGo ((':' :: w).length) (':' :: w) = cLB :: w ++ [cRB] := by
        show subColonGo (w.length + 1) (':' :: w) = cLB :: w ++ [cRB]
        rw [subColonGo, if_pos rfl, htw, hdw]
        have hne : w.isEmpty = false := by
          cases w with
          | nil => exact absurd rfl hw
          | cons a t => rfl
        rw [hne]
        simp only [Bool.false_eq_true, if_false]
        rw [subColonGoNil, List.cons_append]
      rw [hgo]
    have hhost : hostStrip (str "/api/cv/" ++ ('$' :: cLB :: (w ++ [cRB])))
        = str "/api/cv/" ++ ('$' :: cLB :: (w ++ [cRB])) := by
      apply hostStripGoId _ _ le_rfl
      intro c hc
      rcases List.mem_append.mp hc with h1 | h1
      · intro he; subst he; revert h1; decide
      · rcases List.mem_cons.mp h1 with h2 | h2
        · rw [h2]; decide
        · rcases List.mem_cons.mp h2 with h3 | h3
          · rw [h3]; decide
          · rcases List.mem_append.mp h3 with h4 | h4
            · have hcw := List.all_eq_true.mp hword c h4
              intro he
              rw [he] at hcw
              exact absurd hcw (by decide)
            · rcases List.mem_singleton.mp h4 with rfl
              decide
    have hb : normalizeCallPath (str "/api/cv/" ++ ('$' :: cLB :: (w ++ [cRB])))
        = str "/api/cv/" ++ (cLB :: str "id" ++ [cRB]) := by
      rw [normalizeCallPath, hhost]
      rw [subInterpAppend (str "/api/cv/") _ (by decide)]
      have hlen : ('$' :: cLB :: (w ++ [cRB])).length = (w.length + 2) + 1 := by
        simp [List.length_append]
      rw [hlen]
      have hne : ∀ c ∈ w, (fun d => decide (d ≠ cRB)) c = true := by
        intro c hcmem
        have hcw := List.all_eq_true.mp hword c hcmem
        simp only [decide_eq_true_eq]
        intro heq
        rw [heq] at hcw
        exact absurd hcw (by decide)
      rw [subInterpGoStep (w.length + 2) w [] hw hne, subInterpGoNil]
      decide
    refine ⟨ha, hb, ?_⟩
    constructor
    · intro heq
      rw [ha, hb] at heq
      have h1 := List.append_cancel_left heq
      have h3 := List.append_cancel_right h1
      exact (List.cons.inj h3).2
    · intro heq
      subst heq
      rw [ha, hb]
  · decide

/-- C2 witness: the amended statement instantiated at the parameter name
`userId`, whose two normal forms differ. -/
theorem c2_witness :
    subColon (str "/api/cv/" ++ (':' :: str "userId"))
      = str "/api/cv/" ++ (cLB :: str "userId" ++ [cRB])
    ∧ normalizeCallPath (str "/api/cv/" ++ ('$' :: cLB :: (str "userId" ++ [cRB])))
        = str "/api/cv/" ++ (cLB :: str "id" ++ [cRB])
    ∧ (subColon (str "/api/cv/" ++ (':' :: str "userId"))
        = normalizeCallPath (str "/api/cv/" ++ ('$' :: cLB :: (str "userId" ++ [cRB])))
       ↔ str "userId" = str "id") :=
  c2_param_normalization_amended.1 (str "userId") (by decide) (by decide)

/-- C3: a frontend call produces a Route Mismatch warning if and only if its
normalized path starts with `/api` and belongs neither to the normalized
backend route-path set nor to the endpoint-template set; each `/api` call
falls into exactly one of the three outcomes, and a non-`/api` call never
produces a route issue. -/
theorem c3_route_membership (bp eps : List (List Char)) (call : Call) :
    (¬ leadsWith (str "/api") (normalizeCallPath call.url) = true →
      routeIssue bp eps call = none)
    ∧ (normalizeCallPath call.url ∈ bp → routeIssue bp eps call = none)
    ∧ (leadsWith (str "/api") (normalizeCallPath call.url) = true →
        normalizeCallPath call.url ∉ bp → normalizeCallPath call.url ∈ eps →
        routeIssue bp eps call = none)
    ∧ (leadsWith (str "/api") (normalizeCallPath call.url) = true →
        normalizeCallPath call.url ∉ bp → normalizeCallPath call.url ∉ eps →
        routeIssue bp eps call
          = some (routeMismatchIssue (normalizeCallPath call.url) call.file)
        ∧ (routeMismatchIssue (normalizeCallPath call.url) call.file).severity
            = Severity.WARNING
        ∧ (routeMismatchIssue (normalizeCallPath call.url) call.file).category
            = str "Route Mismatch")
    ∧ (¬ routeIssue bp eps call = none ↔
        (leadsWith (str "/api") (normalizeCallPath call.url) = true
          ∧ normalizeCallPath call.url ∉ bp ∧ normalizeCallPath call.url ∉ eps)) := by
  refine ⟨?_, ?_, ?_, ?_, ?_⟩
  · intro h
    simp [routeIssue, h]
  · intro h
    simp [routeIssue, h]
  · intro h1 h2 h3
    simp [routeIssue, h1, h2, h3]
  · intro h1 h2 h3
    refine ⟨?_, rfl, rfl⟩
    simp [routeIssue, h1, h2, h3]
  · by_cases h1 : leadsWith (str "/api") (normalizeCallPath call.url) = true
    · by_cases h2 : normalizeCallPath call.url ∈ bp
      · simp [routeIssue, h1, h2]
      · by_cases h3 : normalizeCallPath call.url ∈ eps
        · simp [routeIssue, h1, h2, h3]
        · simp [routeIssue, h1, h2, h3]
    · simp [routeIssue, h1]

/-- C3 witness: an `/api` call matching neither set yields the warning. -/
theorem c3_witness :
    routeIssue [] [] ⟨str "/api/zzz", str "f.ts"⟩
      = some (routeMismatchIssue (normalizeCallPath (str "/api/zzz")) (str "f.ts")) :=
  ((c3_route_membership [] [] ⟨str "/api/zzz", str "f.ts"⟩).2.2.2.1
    (by decide) (by decide) (by decide)).1

/-- C9: the frontend-to-backend comparison ignores the HTTP method: the
backend path set keeps only normalized paths, so a call whose normalized
path equals that of any route (declared with any method) yields no route
issue, and rewriting every route's method leaves the path set unchanged. -/
theorem c9_method_ignored :
    (∀ (routes : List Route) (eps : List (List Char)) (call : Call),
      (∃ r ∈ routes, subColon r.path = normalizeCallPath call.url) →
      routeIssue (backendPathsOf routes) eps call = none)
    ∧ (∀ (routes : List Route) (g : Route → List Char),
      backendPathsOf (routes.map (fun r => { r with method := g r }))
        = backendPathsOf routes) := by
  constructor
  · rintro routes eps call ⟨r, hr, heq⟩
    have hmem : normalizeCallPath call.url ∈ backendPathsOf routes := by
      rw [← heq]
      exact List.mem_map_of_mem _ hr
    simp [routeIssue, hmem]
  · intro routes g
    simp [backendPathsOf, List.map_map]

/-- C9 witness: a call matched against a POST-declared route with the same
path produces no issue. -/
theorem c9_witness :
    routeIssue (backendPathsOf [⟨str "POST", str "/api/cv", str "r.ts"⟩]) []
      ⟨str "/api/cv", str "a.ts"⟩ = none :=
  c9_method_ignored.1 [⟨str "POST", str "/api/cv", str "r.ts"⟩] [] ⟨str "/api/cv", str "a.ts"⟩
    ⟨⟨str "POST", str "/api/cv", str "r.ts"⟩, by simp, by decide⟩

/-- C1: for a table matched to an interface, each column yields exactly one
of three mutually exclusive outcomes: an identically named field (no
issue), a camelCase sibling (exactly one error of category Field Mismatch
whose message names both identifiers), or no field (exactly one warning of
category Missing Field). -/
theorem c1_column_trichotomy (tname iname : List Char)
    (fields : List (List Char × FieldRec)) (col : List Char) :
    ((alGet fields col).isSome = true → checkColumn tname iname fields col = [])
    ∧ ((alGet fields col).isSome = false →
        (alGet fields (snakeToCamel col)).isSome = true →
        checkColumn tname iname fields col
          = [caseMismatchIssue iname col (snakeToCamel col)]
        ∧ (caseMismatchIssue iname col (snakeToCamel col)).severity = Severity.ERROR
        ∧ (caseMismatchIssue iname col (snakeToCamel col)).category = str "Field Mismatch"
        ∧ ∃ a b c : List Char,
            (caseMismatchIssue iname col (snakeToCamel col)).message
              = a ++ col ++ b ++ snakeToCamel col ++ c)
    ∧ ((alGet fields col).isSome = false →
        (alGet fields (snakeToCamel col)).isSome = false →
        checkColumn tname iname fields col = [missingFieldIssue col tname iname]
        ∧ (missingFieldIssue col tname iname).severity = Severity.WARNING
        ∧ (missingFieldIssue col tname iname).category = str "Missing Field")
    ∧ ((alGet fields col).isSome = true
        ∨ ((alGet fields col).isSome = false
            ∧ (alGet fields (snakeToCamel col)).isSome = true)
        ∨ ((alGet fields col).isSome = false
            ∧ (alGet fields (snakeToCamel col)).isSome = false)) := by
  refine ⟨?_, ?_, ?_, ?_⟩
  · intro h
    simp [checkColumn, h]
  · intro h1 h2
    refine ⟨?_, rfl, rfl, ?_⟩
    · simp [checkColumn, h1, h2]
    · refine ⟨str "Case mismatch in " ++ quoted iname ++ str ": database has " ++ [cSQ],
        [cSQ] ++ str ", TypeScript has " ++ [cSQ], [cSQ], ?_⟩
      simp [caseMismatchIssue, quoted]
  · intro h1 h2
    refine ⟨?_, rfl, rfl⟩
    simp [checkColumn, h1, h2]
  · by_cases h1 : (alGet fields col).isSome = true
    · exact Or.inl h1
    · have h1f : (alGet fields col).isSome = false := by
        cases hx : (alGet fields col).isSome
        · rfl
        · exact absurd hx h1
      by_cases h2 : (alGet fields (snakeToCamel col)).isSome = true
      · exact Or.inr (Or.inl ⟨h1f, h2⟩)
      · have h2f : (alGet fields (snakeToCamel col)).isSome = false := by
          cases hx : (alGet fields (snakeToCamel col)).isSome
          · rfl
          · exact absurd hx h2
        exact Or.inr (Or.inr ⟨h1f, h2f⟩)

/-- C1 witness: the spec scenario `full_name` versus `fullName` yields
exactly the Field Mismatch error. -/
theorem c1_witness :
    checkColumn (str "profiles") (str "Profile")
      [(str "fullName", ⟨str "string", false⟩)] (str "full_name")
      = [caseMismatchIssue (str "Profile") (str "full_name")
          (snakeToCamel (str "full_name"))] :=
  ((c1_column_trichotomy (str "profiles") (str "Profile")
      [(str "fullName", ⟨str "string", false⟩)] (str "full_name")).2.1
    (by decide) (by decide)).1

/- ---------- _parse_database_sql (lines 142-174) ---------- -/

/-- Case-insensitive literal consumption (the `re.IGNORECASE` flag). -/
def dropLitCI : List Char → List Char → Option (List Char)
  | [], l => some l
  | _ :: _, [] => none
  | p :: ps, c :: cs => if p.toLower = c.toLower then dropLitCI ps cs else none

/-- Case-sensitive literal consumption. -/
def dropLit : List Char → List Char → Option (List Char)
  | [], l => some l
  | _ :: _, [] => none
  | p :: ps, c :: cs => if p = c then dropLit ps cs else none

/-- Split at the first `);` (the lazy `([\s\S]*?)\);` group). -/
def splitClose : List Char → Option (List Char × List Char)
  | [] => none
  | c :: rest =>
    if c = ')' then
      match rest with
      | c2 :: rest2 =>
        if c2 = ';' then some ([], rest2)
        else (splitClose rest).map (fun p => (c :: p.1, p.2))
      | [] => none
    else (splitClose rest).map (fun p => (c :: p.1, p.2))

/-- After the table keyword (and optional schema prefix): `(\w+)\s*\(` and
the lazy body up to `);`. -/
def tableTail (l : List Char) : Option ((List Char × List Char) × List Char) :=
  if (l.takeWhile isWordChar).isEmpty then none
  else
    match (l.dropWhile isWordChar).dropWhile isSpaceChar with
    | c :: rest =>
      if c = '(' then
        (splitClose rest).map (fun p => ((l.takeWhile isWordChar, p.1), p.2))
      else none
    | [] => none

/-- One attempt of `CREATE TABLE (?:public\.)?(\w+)\s*\(([\s\S]*?)\);` at
the current position (case-insensitive, with regex fallback on the
optional `public.` group). -/
def matchTableAt (l : List Char) : Option ((List Char × List Char) × List Char) :=
  match dropLitCI (str "CREATE TABLE ") l with
  | none => none
  | some l1 =>
    match dropLitCI (str "public.") l1 with
    | some l2 =>
      match tableTail l2 with
      | some r => some r
      | none => tableTail l1
    | none => tableTail l1

/-- `re.finditer` scan for table declarations, left to right,
non-overlapping. -/
def findTablesGo : Nat → List Char → List (List Char × List Char)
  | 0, _ => []
  | _ + 1, [] => []
  | fuel + 1, c :: rest =>
    match matchTableAt (c :: rest) with
    | some (nb, rest2) => nb :: findTablesGo fuel rest2
    | none => findTablesGo fuel rest

/-- All `(table name, columns block)` matches in the schema text. -/
def findTables (l : List Char) : List (List Char × List Char) := findTablesGo l.length l

/-- One line of a columns block (lines 158-170): strip, skip comment and
constraint lines, then `re.match(r'(\w+)\s+(\w+)', line)`; the type token
is upper-cased and nullability is `'NOT NULL' not in line.upper()`. -/
def parseColLine (rawLine : List Char) : Option (List Char × ColumnRec) :=
  let s := pyStrip rawLine
  if s.isEmpty then none
  else if leadsWith (str "--") s || leadsWith (str "PRIMARY KEY") s
      || leadsWith (str "FOREIGN KEY") s || leadsWith (str "CHECK") s
      || leadsWith (str "CONSTRAINT") s then none
  else if (s.takeWhile isWordChar).isEmpty then none
  else
    if ((s.dropWhile isWordChar).takeWhile isSpaceChar).isEmpty then none
    else
      if (((s.dropWhile isWordChar).dropWhile isSpaceChar).takeWhile isWordChar).isEmpty then none
      else some (s.takeWhile isWordChar,
        ⟨pyUpper (((s.dropWhile isWordChar).dropWhile isSpaceChar).takeWhile isWordChar),
         !(hasSub (str "NOT NULL") (pyUpper s))⟩)

/-- The columns dict of one table (insertion order, duplicates overwrite). -/
def parseColumns (body : List Char) : List (List Char × ColumnRec) :=
  (pySplitChar '\n' body).foldl
    (fun acc line =>
      match parseColLine line with
      | some nv => pyInsert acc nv.1 nv.2
      | none => acc) []

/-- `_parse_database_sql`: the `db_tables` dict plus the issues the method
appends (it appends none — malformed blocks are skipped silently). -/
def parseDatabaseSql (content : List Char) :
    List (List Char × List (List Char × ColumnRec)) × List ValidationIssue :=
  ((findTables content).foldl (fun acc nb => pyInsert acc nb.1 (parseColumns nb.2)) [], [])

/- ---------- _parse_types_ts (lines 176-209) ---------- -/

/-- The `interface\s+(\w+)\s*\{([^}]+)\}` core at the current position. -/
def ifaceCore (l : List Char) : Option ((List Char × List Char) × List Char) :=
  match dropLit (str "interface") l with
  | none => none
  | some l1 =>
    if (l1.takeWhile isSpaceChar).isEmpty then none
    else
      if ((l1.dropWhile isSpaceChar).takeWhile isWordChar).isEmpty then none
      else
        match (((l1.dropWhile isSpaceChar).dropWhile isWordChar).dropWhile isSpaceChar) with
        | c :: rest =>
          if c = cLB then
            if (rest.takeWhile (fun d => d ≠ cRB)).isEmpty then none
            else
              match rest.dropWhile (fun d => d ≠ cRB) with
              | _ :: rest2 =>
                some (((l1.dropWhile isSpaceChar).takeWhile isWordChar,
                  rest.takeWhile (fun d => d ≠ cRB)), rest2)
              | [] => none
          else none
        | [] => none

/-- One attempt of `(?:export\s+)?interface\s+(\w+)\s*\{([^}]+)\}`. -/
def matchIfaceAt (l : List Char) : Option ((List Char × List Char) × List Char) :=
  match dropLit (str "export") l with
  | some l1 =>
    if (l1.takeWhile isSpaceChar).isEmpty then ifaceCore l
    else
      match ifaceCore (l1.dropWhile isSpaceChar) with
      | some r => some r
      | none => ifaceCore l
  | none => ifaceCore l

/-- `re.finditer` scan for interface declarations. -/
def findIfacesGo : Nat → List Char → List (List Char × List Char)
  | 0, _ => []
  | _ + 1, [] => []
  | fuel + 1, c :: rest =>
    match matchIfaceAt (c :: rest) with
    | some (nb, rest2) => nb :: findIfacesGo fuel rest2
    | none => findIfacesGo fuel rest

/-- All `(interface name, fields block)` matches in the types text. -/
def findIfaces (l : List Char) : List (List Char × List Char) := findIfacesGo l.length l

/-- One field line (lines 192-205): strip, drop trailing `;` then `,`,
skip blank and `//` lines, then `re.match(r'(\w+)(\?)?:\s*(.+)', line)`. -/
def parseFieldLine (rawLine : List Char) : Option (List Char × FieldRec) :=
  let line := pyRstripChar ',' (pyRstripChar ';' (pyStrip rawLine))
  if line.isEmpty then none
  else if leadsWith (str "//") line then none
  else if (line.takeWhile isWordChar).isEmpty then none
  else
    match line.dropWhile isWordChar with
    | c :: rest =>
      if c = '?' then
        match rest with
        | c2 :: rest2 =>
          if c2 = ':' then
            if rest2.isEmpty then none
            else some (line.takeWhile isWordChar, ⟨pyStrip rest2, true⟩)
          else none
        | [] => none
      else if c = ':' then
        if rest.isEmpty then none
        else some (line.takeWhile isWordChar, ⟨pyStrip rest, false⟩)
      else none
    | [] => none

/-- The fields dict of one interface (duplicates overwrite, last wins). -/
def parseFields (body : List Char) : List (List Char × FieldRec) :=
  (pySplitChar '\n' body).foldl
    (fun acc line =>
      match parseFieldLine line with
      | some nv => pyInsert acc nv.1 nv.2
      | none => acc) []

/-- `_parse_types_ts`: the `ts_interfaces` dict plus the issues the method
appends (it appends none — duplicate names are overwritten silently). -/
def parseTypesTs (content : List Char) :
    List (List Char × List (List Char × FieldRec)) × List ValidationIssue :=
  ((findIfaces content).foldl (fun acc nb => pyInsert acc nb.1 (parseFields nb.2)) [], [])

/- ---------- _parse_endpoints_ts (lines 281-298) ---------- -/

/-- Member of the quote class `['"\x60]`. -/
def isQuoteChar (c : Char) : Bool := c = cSQ || c = cDQ || c = cBQ

/-- One attempt of the endpoint literal pattern at the current position. -/
def matchEndpointAt : List Char → Option (List Char × List Char)
  | [] => none
  | c :: rest =>
    if isQuoteChar c then
      if leadsWith (str "/api") rest then
        if 5 ≤ (rest.takeWhile (fun d => !(isQuoteChar d))).length then
          match rest.dropWhile (fun d => !(isQuoteChar d)) with
          | _ :: rest2 => some (rest.takeWhile (fun d => !(isQuoteChar d)), rest2)
          | [] => none
        else none
      else none
    else none

/-- `re.finditer` scan for quoted `/api...` endpoint strings. -/
def findEndpointsGo : Nat → List Char → List (List Char)
  | 0, _ => []
  | _ + 1, [] => []
  | fuel + 1, c :: rest =>
    match matchEndpointAt (c :: rest) with
    | some (cap, rest2) => cap :: findEndpointsGo fuel rest2
    | none => findEndpointsGo fuel rest

/-- `_parse_endpoints_ts`: normalized endpoint keys (via `${name}` →
`:name`) in first-seen order, plus the (empty) issue contribution. -/
def parseEndpointsTs (content : List Char) : List (List Char) × List ValidationIssue :=
  ((findEndpointsGo content.length content).foldl
    (fun acc e => pyInsertKey acc (subInterpColon e)) [], [])

/- ---------- _compare_db_to_ts (lines 211-274) ---------- -/

/-- The hardcoded table-to-interface map (lines 214-221). -/
def tableToInterfaceLookup : List (List Char × List Char) :=
  [(str "profiles", str "Profile"),
   (str "cvs", str "CV"),
   (str "cv_analyses", str "CVAnalysis"),
   (str "motivation_letters", str "MotivationLetter"),
   (str "interviews", str "Interview"),
   (str "interview_questions", str "InterviewQuestion")]

/-- The default heuristic `table_name.rstrip('s').title()` (line 227). -/
def defaultCandidate (t : List Char) : List Char := pyTitle (pyRstripChar 's' t)

/-- Candidate interface name: lookup first, heuristic otherwise
(lines 225-228). -/
def interfaceCandidate (t : List Char) : List Char :=
  (alGet tableToInterfaceLookup t).getD (defaultCandidate t)

/-- `''.join(word.title() for word in table_name.split('_'))` (line 235). -/
def camelJoin (t : List Char) : List Char := ((pySplitChar '_' t).map pyTitle).flatten

/-- The fallback variations tried in order (lines 232-236). -/
def candidateVariations (t iname : List Char) : List (List Char) :=
  [iname, pyUpper iname, pyRstripChar 's' (camelJoin t)]

/-- The Type Sync warning for a table with no interface (lines 246-251). -/
def typeSyncIssue (tname iname : List Char) : ValidationIssue :=
  { severity := Severity.WARNING
    category := str "Type Sync"
    message := str "No TypeScript interface found for table " ++ quoted tname
    suggestion := some (str "Create interface " ++ quoted iname ++ str " in types.ts") }

/-- Issues produced for one table of the `db_tables` dict (lines 223-274). -/
def compareTable (tsIfaces : List (List Char × List (List Char × FieldRec)))
    (tname : List Char) (cols : List (List Char × ColumnRec)) : List ValidationIssue :=
  match alGet tsIfaces (interfaceCandidate tname) with
  | some fields =>
    (cols.map (fun cv => checkColumn tname (interfaceCandidate tname) fields cv.1)).flatten
  | none =>
    match (candidateVariations tname (interfaceCandidate tname)).find?
        (fun v => (alGet tsIfaces v).isSome) with
    | some v =>
      (cols.map (fun cv => checkColumn tname v ((alGet tsIfaces v).getD []) cv.1)).flatten
    | none => [typeSyncIssue tname (interfaceCandidate tname)]

/-- `_compare_db_to_ts`: tables in insertion order. -/
def compareDbToTs (dbTables : List (List Char × List (List Char × ColumnRec)))
    (tsIfaces : List (List Char × List (List Char × FieldRec))) : List ValidationIssue :=
  (dbTables.map (fun tc => compareTable tsIfaces tc.1 tc.2)).flatten

/- ---------- validate_all (lines 74-108) over a project snapshot ---------- -/

/-- A project snapshot: contract file contents (None = file absent, as with
the `exists()` guards), existence flags for the two unparsed contract
files, and the scan results of the frontend/backend source walks in
discovery order. -/
structure ProjectInput where
  hasContractsDir : Bool
  contractsDirName : List Char
  databaseSql : Option (List Char)
  typesTs : Option (List Char)
  endpointsTs : Option (List Char)
  hasValidationTs : Bool
  hasErrorsTs : Bool
  frontendRaw : List Call
  backendRoutes : List Route
deriving DecidableEq, Repr

/-- The error for a missing contracts directory (lines 112-119). -/
def noContractsIssue : ValidationIssue :=
  { severity := Severity.ERROR
    category := str "Contracts"
    message := str "No contracts directory found"
    suggestion := some (str "Create contracts/ directory with database.sql, types.ts, endpoints.ts, validation.ts, errors.ts") }

/-- The error for one missing required contract file (lines 131-138). -/
def missingFileIssue (name dirName : List Char) : ValidationIssue :=
  { severity := Severity.ERROR
    category := str "Contracts"
    message := str "Missing required contract file: " ++ name
    file := some dirName
    suggestion := some (str "Create " ++ name ++ str " in contracts directory") }

/-- `_check_contract_files` (lines 110-140). -/
def checkContractFiles (inp : ProjectInput) : List ValidationIssue :=
  if inp.hasContractsDir = false then [noContractsIssue]
  else
    (if inp.databaseSql.isNone then [missingFileIssue (str "database.sql") inp.contractsDirName] else [])
    ++ (if inp.typesTs.isNone then [missingFileIssue (str "types.ts") inp.contractsDirName] else [])
    ++ (if inp.endpointsTs.isNone then [missingFileIssue (str "endpoints.ts") inp.contractsDirName] else [])
    ++ (if inp.hasValidationTs = false then [missingFileIssue (str "validation.ts") inp.contractsDirName] else [])
    ++ (if inp.hasErrorsTs = false then [missingFileIssue (str "errors.ts") inp.contractsDirName] else [])

/-- Parsed `db_tables` (empty when the file is absent, line 145). -/
def parsedTables (inp : ProjectInput) : List (List Char × List (List Char × ColumnRec)) :=
  match inp.databaseSql with
  | some c => (parseDatabaseSql c).1
  | none => []

/-- Parsed `ts_interfaces` (empty when the file is absent, line 179). -/
def parsedIfaces (inp : ProjectInput) : List (List Char × List (List Char × FieldRec)) :=
  match inp.typesTs with
  | some c => (parseTypesTs c).1
  | none => []

/-- Parsed `api_endpoints` keys (empty when the file is absent, line 284). -/
def parsedEndpoints (inp : ProjectInput) : List (List Char) :=
  match inp.endpointsTs with
  | some c => (parseEndpointsTs c).1
  | none => []

/-- The append filter of `_scan_file_for_api_calls` (line 336). -/
def scanFilter (raw : List Call) : List Call :=
  raw.filter (fun c => leadsWith (str "/api") c.url || leadsWith (str "http") c.url)

/-- `validate_all` (lines 74-108): the ordered issue list of a full run and
the boolean verdict. -/
def validateAll (inp : ProjectInput) : List ValidationIssue × Bool :=
  ((checkContractFiles inp
    ++ (if inp.hasContractsDir then compareDbToTs (parsedTables inp) (parsedIfaces inp) else [])
    ++ compareFrontendToBackend inp.backendRoutes
        (if inp.hasContractsDir then parsedEndpoints inp else [])
        (scanFilter inp.frontendRaw)),
   validateVerdict
    (checkContractFiles inp
    ++ (if inp.hasContractsDir then compareDbToTs (parsedTables inp) (parsedIfaces inp) else [])
    ++ compareFrontendToBackend inp.backendRoutes
        (if inp.hasContractsDir then parsedEndpoints inp else [])
        (scanFilter inp.frontendRaw)))

/-- `main` (lines 448-464): process exit status of one run. -/
def mainExitStatus (inp : ProjectInput) : Nat := exitStatus (validateAll inp).2

/- ---------- remaining claim theorems ---------- -/

/-- C4: a run fails if and only if at least one error-severity issue was
produced: `validate_all` returns `false` (and the exit status is nonzero)
exactly when some issue has severity ERROR, and a run whose issues are all
warnings or infos passes. -/
theorem c4_fail_iff_error (inp : ProjectInput) :
    ((validateAll inp).2 = false ↔ ∃ i ∈ (validateAll inp).1, i.severity = Severity.ERROR)
    ∧ (¬ mainExitStatus inp = 0 ↔ ∃ i ∈ (validateAll inp).1, i.severity = Severity.ERROR)
    ∧ ((∀ i ∈ (validateAll inp).1, ¬ i.severity = Severity.ERROR) →
        (validateAll inp).2 = true) := by
  refine ⟨validateVerdict_false_iff _, ?_, ?_⟩
  · rw [mainExitStatus, exitStatus]
    constructor
    · intro h
      by_cases hb : (validateAll inp).2 = true
      · rw [hb] at h
        simp at h
      · have hf : (validateAll inp).2 = false := by
          cases hx : (validateAll inp).2
          · rfl
          · exact absurd hx hb
        exact (validateVerdict_false_iff _).mp hf
    · intro hex
      have hf : (validateAll inp).2 = false := (validateVerdict_false_iff _).mpr hex
      rw [hf]
      simp
  · intro hall
    cases hx : (validateAll inp).2
    · rcases (validateVerdict_false_iff _).mp hx with ⟨i, hi, hsev⟩
      exact absurd hsev (hall i hi)
    · rfl

/-- A snapshot with no contracts directory: one structural error. -/
def inpFailing : ProjectInput :=
  ⟨false, str "contracts", none, none, none, false, false, [], []⟩

/-- C4 witness: the characterization applied to a concrete failing run. -/
theorem c4_witness :
    ((validateAll inpFailing).2 = false
      ↔ ∃ i ∈ (validateAll inpFailing).1, i.severity = Severity.ERROR)
    ∧ (¬ mainExitStatus inpFailing = 0
      ↔ ∃ i ∈ (validateAll inpFailing).1, i.severity = Severity.ERROR)
    ∧ ((∀ i ∈ (validateAll inpFailing).1, ¬ i.severity = Severity.ERROR) →
        (validateAll inpFailing).2 = true) :=
  c4_fail_iff_error inpFailing

/-- C8: the pipeline is a pure function of the project snapshot (contract
file contents plus the ordered scan results), so two runs over equal
snapshots produce identical ordered issue lists and identical verdicts. -/
theorem c8_determinism : ∀ inp1 inp2 : ProjectInput, inp1 = inp2 →
    (validateAll inp1).1 = (validateAll inp2).1
    ∧ (validateAll inp1).2 = (validateAll inp2).2 := by
  intro inp1 inp2 h
  rw [h]
  exact ⟨rfl, rfl⟩

/-- C8 witness: two runs over the same concrete snapshot agree. -/
theorem c8_witness :
    (validateAll inpFailing).1 = (validateAll inpFailing).1
    ∧ (validateAll inpFailing).2 = (validateAll inpFailing).2 :=
  c8_determinism inpFailing inpFailing rfl

/-- The schema scenario of C5: one well-formed table block followed by one
malformed block with no closing `);`. -/
def schemaScenario : List Char :=
  str "CREATE TABLE users (\n  id UUID PRIMARY KEY,\n  email TEXT NOT NULL\n);\nCREATE TABLE broken (\n  name TEXT"

/-- C5 counterexample: the claim says the malformed block produces exactly
one warning-severity parse issue.  The extractor appends no issue at all:
the malformed block is skipped silently (only the well-formed table is
matched) and the issue contribution is empty, not a one-element list. -/
theorem c5_counterexample :
    (parseDatabaseSql schemaScenario).2 = []
    ∧ findTables schemaScenario
        = [(str "users", str "\n  id UUID PRIMARY KEY,\n  email TEXT NOT NULL\n")]
    ∧ (parseDatabaseSql schemaScenario).1
        = [(str "users",
            [(str "id", ⟨str "UUID", true⟩), (str "email", ⟨str "TEXT", false⟩)])] := by
  refine ⟨rfl, by decide, by decide⟩

/-- C5 (amended): the schema extractor never aborts and never emits parse
issues; on the scenario input the malformed block is silently skipped
(zero parse warnings rather than one) while the well-formed block still
yields a correctly populated table entry. -/
theorem c5_parse_resilience_amended :
    (∀ content : List Char, (parseDatabaseSql content).2 = [])
    ∧ (parseDatabaseSql schemaScenario).1
        = [(str "users",
            [(str "id", ⟨str "UUID", true⟩), (str "email", ⟨str "TEXT", false⟩)])] :=
  ⟨fun _ => rfl, by decide⟩

/-- The duplicate-declaration scenarios of C6. -/
def typesDupScenario : List Char :=
  str "interface A \x7b x: string \x7d\ninterface A \x7b y: number \x7d"

/-- Duplicate field name inside one interface. -/
def fieldDupScenario : List Char := str "interface B \x7b x: string\nx: number \x7d"

/-- Duplicate table name in one schema file. -/
def tableDupScenario : List Char := str "CREATE TABLE t (a TEXT);\nCREATE TABLE t (b TEXT);"

/-- C6 counterexample: the claim says a duplicate declaration emits a
warning-severity issue.  The input declares interface `A` twice, yet the
extractor emits no issue at all; the duplicate is silently overwritten. -/
theorem c6_counterexample :
    (findIfaces typesDupScenario).map Prod.fst = [str "A", str "A"]
    ∧ (parseTypesTs typesDupScenario).2 = []
    ∧ (parseTypesTs typesDupScenario).1
        = [(str "A", [(str "y", ⟨str "number", false⟩)])] := by
  refine ⟨by decide, rfl, by decide⟩

/-- Python dict assignment: inserting the same key twice keeps the last
value. -/
theorem pyInsertLastWins {β : Type} : ∀ (d : List (List Char × β)) (k : List Char) (v1 v2 : β),
    alGet (pyInsert (pyInsert d k v1) k v2) k = some v2 := by
  intro d k v1 v2
  induction d with
  | nil => simp [pyInsert, alGet]
  | cons kv rest ih =>
    obtain ⟨k', v'⟩ := kv
    by_cases hk : k' = k
    · simp [pyInsert, hk, alGet]
    · simp [pyInsert, hk, alGet, ih]

/-- C6 (amended): when the same table, interface, or field name is declared
twice in one extraction pass the last declaration wins, and the duplicate
is overwritten silently — the extractors emit no issue at all. -/
theorem c6_last_wins_amended :
    (∀ (β : Type) (d : List (List Char × β)) (k : List Char) (v1 v2 : β),
      alGet (pyInsert (pyInsert d k v1) k v2) k = some v2)
    ∧ (∀ content : List Char,
        (parseTypesTs content).2 = [] ∧ (parseDatabaseSql content).2 = [])
    ∧ (parseTypesTs typesDupScenario).1
        = [(str "A", [(str "y", ⟨str "number", false⟩)])]
    ∧ (parseTypesTs fieldDupScenario).1
        = [(str "B", [(str "x", ⟨str "number", false⟩)])]
    ∧ (parseDatabaseSql tableDupScenario).1
        = [(str "t", [(str "b", ⟨str "TEXT", true⟩)])] :=
  ⟨fun _ => pyInsertLastWins, fun _ => ⟨rfl, rfl⟩, by decide, by decide, by decide⟩

/-- C10: the table-to-interface candidate comes from the six-entry lookup
first; for any other table the default strips all trailing `s` characters
and title-cases, and the fallback variations are, in order, the candidate,
its uppercase form, and the camel-joined snake_case name with trailing `s`
stripped. -/
theorem c10_candidate_generation :
    (interfaceCandidate (str "profiles") = str "Profile"
      ∧ interfaceCandidate (str "cvs") = str "CV"
      ∧ interfaceCandidate (str "cv_analyses") = str "CVAnalysis"
      ∧ interfaceCandidate (str "motivation_letters") = str "MotivationLetter"
      ∧ interfaceCandidate (str "interviews") = str "Interview"
      ∧ interfaceCandidate (str "interview_questions") = str "InterviewQuestion")
    ∧ (∀ t : List Char, alGet tableToInterfaceLookup t = none →
        interfaceCandidate t = pyTitle (pyRstripChar 's' t))
    ∧ (∀ (t : List Char) (n : Nat),
        pyRstripChar 's' (t ++ List.replicate n 's') = pyRstripChar 's' t)
    ∧ (∀ t iname : List Char,
        candidateVariations t iname = [iname, pyUpper iname, pyRstripChar 's' (camelJoin t)])
    ∧ interfaceCandidate (str "boss") = str "Bo"
    ∧ interfaceCandidate (str "user_settings") = str "User_Setting"
    ∧ candidateVariations (str "user_settings") (interfaceCandidate (str "user_settings"))
        = [str "User_Setting", str "USER_SETTING", str "UserSetting"] := by
  refine ⟨by decide, ?_, ?_, fun t iname => rfl, by decide, by decide, by decide⟩
  · intro t h
    rw [interfaceCandidate, h]
    rfl
  · intro t n
    rw [pyRstripChar, pyRstripChar, List.reverse_append, List.reverse_replicate]
    congr 1
    induction n with
    | zero => rfl
    | succ m ih =>
      rw [List.replicate_succ, List.cons_append, List.dropWhile_cons_of_pos (by decide)]
      exact ih

/-- C10 witness: the heuristic applied to a table outside the lookup,
stripping both trailing `s` characters of `boss`. -/
theorem c10_witness :
    interfaceCandidate (str "boss") = pyTitle (pyRstripChar 's' (str "boss")) :=
  c10_candidate_generation.2.1 (str "boss") (by decide)
